import Mathlib

/-!
Shallow embedding of `crates/tpu-client/src/yellowstone_grpc/schedule.rs`
(the `YellowstoneUpcomingLeader` implementation of `UpcomingLeaderPredictor`)
and proofs of the specified properties of `try_predict_next_n_leaders`.

Rust `u64`/`usize` values are modelled as `Nat`; `saturating_sub` is `Nat`
subtraction (which is truncated at 0, exactly the saturating behaviour).
The two collaborators are modelled at their interfaces:
  * the slot tracker's `load()` returns `Except PoisonError Nat`
    (the source calls `.expect("load")`, so a poisoned tracker makes the
    whole call fail; we model that failure as the `Except.error` outcome);
  * the schedule oracle's `get_leader(boundary)` returns
    `Except LookupError (Option Pubkey)`.
-/

namespace YellowstoneSchedule

/-- Opaque leader identity (`solana_pubkey::Pubkey` in the source); the
predictor never inspects its structure. -/
structure Pubkey where
  id : Nat
deriving DecidableEq, Repr

/-- Error returned by a poisoned slot tracker. -/
inductive PoisonError where
  | poisoned
deriving DecidableEq, Repr

/-- Transient error from a leader-schedule lookup. -/
inductive LookupError where
  | transient
deriving DecidableEq, Repr

/-- The slot tracker collaborator, at its interface: a single fallible read.
`load` yields the most recently observed slot, or fails if the tracker is
poisoned. -/
structure AtomicSlotTracker where
  load : Except PoisonError Nat

/-- The leader-schedule oracle collaborator, at its interface: a lookup from
a window boundary to an optional leader identity, which may also fail
transiently. -/
structure ManagedLeaderSchedule where
  get_leader : Nat → Except LookupError (Option Pubkey)

/-- The predictor: shared handles to the two collaborators
(`YellowstoneUpcomingLeader` in the source). -/
structure YellowstoneUpcomingLeader where
  slot_tracker : AtomicSlotTracker
  managed_schedule : ManagedLeaderSchedule

/-- Source `current_leader_boundary`, as computed in the source:
`slot.saturating_sub(slot % 4)`. -/
def currentLeaderBoundary (slot : Nat) : Nat :=
  slot - slot % 4

/-- Source `start_boundary`, as computed in the source:
`current_leader_boundary.saturating_sub(4)`. -/
def startBoundary (slot : Nat) : Nat :=
  currentLeaderBoundary slot - 4

/-- The candidate boundaries generated by `(0..n).map(|i| start_boundary + (i * 4) as u64)`. -/
def candidateBoundaries (n : Nat) (slot : Nat) : List Nat :=
  (List.range n).map (fun i => startBoundary slot + i * 4)

/-- The per-boundary resolution step of the `filter_map` closure:
`Ok(Some(leader))` is kept, `Ok(None)` and `Err(_)` are dropped. -/
def resolveBoundary (sched : ManagedLeaderSchedule) (b : Nat) : Option Pubkey :=
  match sched.get_leader b with
  | .ok (some leader) => some leader
  | .ok none => none
  | .error _ => none

/-- Translation of `try_predict_next_n_leaders`, taken from the source.  The source
panics (via `.expect("load")`) on a poisoned tracker; that whole-call
failure is the `Except.error` outcome here. -/
def try_predict_next_n_leaders (self : YellowstoneUpcomingLeader) (n : Nat) :
    Except PoisonError (List Pubkey) :=
  if n = 0 then
    .ok []
  else
    match self.slot_tracker.load with
    | .error e => .error e
    | .ok slot =>
      let leaders : List Pubkey :=
        (candidateBoundaries n slot).filterMap
          (resolveBoundary self.managed_schedule)
      .ok leaders

/-- Trace of one call: the result, how many times the tracker was read, and
the boundaries queried against the oracle, in query order. -/
structure CallTrace where
  result : Except PoisonError (List Pubkey)
  trackerReads : Nat
  queried : List Nat
deriving Repr

/-- Instrumented form of `try_predict_next_n_leaders`: the same computation,
additionally recording every collaborator interaction.  The `filter_map`
in the source evaluates the oracle at every generated boundary, so the
queried list is the full candidate list whenever the tracker read
succeeds. -/
def try_predict_next_n_leaders_traced (self : YellowstoneUpcomingLeader)
    (n : Nat) : CallTrace :=
  if n = 0 then
    { result := .ok [], trackerReads := 0, queried := [] }
  else
    match self.slot_tracker.load with
    | .error e => { result := .error e, trackerReads := 1, queried := [] }
    | .ok slot =>
      let bs := candidateBoundaries n slot
      { result := .ok (bs.filterMap (resolveBoundary self.managed_schedule))
        trackerReads := 1
        queried := bs }

/-- The traced call computes the same result as the plain translation. -/
theorem traced_result_eq (self : YellowstoneUpcomingLeader) (n : Nat) :
    (try_predict_next_n_leaders_traced self n).result =
      try_predict_next_n_leaders self n := by
  unfold try_predict_next_n_leaders_traced try_predict_next_n_leaders
  by_cases h : n = 0
  · simp [h]
  · simp only [h, if_false]
    cases self.slot_tracker.load <;> rfl

/-! ### Helper lemmas shared by the claim proofs -/

/-- The candidate boundary list has exactly `n` elements. -/
theorem candidateBoundaries_length (n : Nat) (s : Nat) :
    (candidateBoundaries n s).length = n := by
  simp [candidateBoundaries]

/-- Element formula for the candidate boundary list. -/
theorem candidateBoundaries_getElem (n : Nat) (s : Nat) (i : Nat) (h : i < n) :
    (candidateBoundaries n s)[i]? = some (startBoundary s + 4 * i) := by
  simp [candidateBoundaries, List.getElem?_range h, Nat.mul_comm]

/-- Candidate boundaries are strictly increasing. -/
theorem candidateBoundaries_pairwise (n : Nat) (s : Nat) :
    List.Pairwise (· < ·) (candidateBoundaries n s) := by
  refine (List.pairwise_lt_range n).map _ (fun a b hab => ?_)
  show startBoundary s + a * 4 < startBoundary s + b * 4
  omega

/-- Consecutive candidate boundaries differ by exactly 4. -/
theorem candidateBoundaries_chain (n : Nat) (s : Nat) :
    List.Chain' (fun a b => b = a + 4) (candidateBoundaries n s) := by
  rw [List.chain'_iff_get]
  intro i h
  simp only [candidateBoundaries, List.length_map, List.length_range] at h
  simp only [candidateBoundaries, List.get_eq_getElem, List.getElem_map, List.getElem_range]
  omega

/-- When the tracker read succeeds and `n ≠ 0`, the plain call returns
exactly the `filterMap` of the candidate boundaries. -/
theorem try_predict_ok (p : YellowstoneUpcomingLeader) (n : Nat) (s : Nat)
    (hn : n ≠ 0) (hs : p.slot_tracker.load = .ok s) :
    try_predict_next_n_leaders p n =
      .ok ((candidateBoundaries n s).filterMap
        (resolveBoundary p.managed_schedule)) := by
  unfold try_predict_next_n_leaders
  simp [hn, hs]

/-- When the tracker read succeeds and `n ≠ 0`, every candidate boundary is
queried, in generation order. -/
theorem traced_queried (p : YellowstoneUpcomingLeader) (n : Nat) (s : Nat)
    (hn : n ≠ 0) (hs : p.slot_tracker.load = .ok s) :
    (try_predict_next_n_leaders_traced p n).queried = candidateBoundaries n s := by
  unfold try_predict_next_n_leaders_traced
  simp [hn, hs]

/-- Length accounting for `filterMap`: kept plus dropped equals total. -/
theorem length_filterMap_add_countP_none {α β : Type} (f : α → Option β)
    (l : List α) :
    (l.filterMap f).length + l.countP (fun a => (f a).isNone) = l.length := by
  induction l with
  | nil => rfl
  | cons a l ih =>
    cases h : f a <;>
      simp [List.filterMap_cons, h, List.countP_cons, ← ih] <;> omega

/-- Concrete collaborators used by the witnesses. -/
def poisonedPredictor : YellowstoneUpcomingLeader :=
  { slot_tracker := { load := .error PoisonError.poisoned }
    managed_schedule := { get_leader := fun _ => .ok none } }

/-! ### Claim theorems -/

/-- C1: for every `n > 0`, a poisoned slot tracker makes the whole call to
`try_predict_next_n_leaders` fail; no leader sequence (empty, stale or
default) is returned. -/
theorem poisoned_tracker_fails_whole_call (p : YellowstoneUpcomingLeader)
    (n : Nat) (hn : 0 < n)
    (hp : p.slot_tracker.load = .error PoisonError.poisoned) :
    try_predict_next_n_leaders p n = .error PoisonError.poisoned := by
  unfold try_predict_next_n_leaders
  simp [Nat.pos_iff_ne_zero.mp hn, hp]

theorem poisoned_tracker_fails_whole_call_witness :
    0 < 1 ∧
    try_predict_next_n_leaders poisonedPredictor 1 =
      .error PoisonError.poisoned :=
  ⟨by decide, poisoned_tracker_fails_whole_call poisonedPredictor 1 (by decide) rfl⟩

/-- C2: for every slot `s`, the computed current boundary is
`s - (s mod 4)` and the computed start boundary is
`max 0 (current_boundary - 4)` over the integers: the saturating
subtraction never wraps below zero. -/
theorem boundary_arithmetic (s : Nat) :
    (currentLeaderBoundary s : Int) = (s : Int) - (s : Int) % 4 ∧
    (startBoundary s : Int) = max 0 ((currentLeaderBoundary s : Int) - 4) ∧
    0 ≤ (startBoundary s : Int) := by
  unfold startBoundary currentLeaderBoundary
  refine ⟨by omega, ?_, by omega⟩
  rw [max_def]
  split <;> omega

/-- C7: `try_predict_next_n_leaders 0` returns the empty sequence for every
tracker and oracle state, reads the tracker zero times and queries no
boundary; in particular it succeeds even on a poisoned tracker. -/
theorem zero_request_empty_no_calls (p : YellowstoneUpcomingLeader) :
    try_predict_next_n_leaders p 0 = .ok [] ∧
    try_predict_next_n_leaders_traced p 0 =
      { result := .ok [], trackerReads := 0, queried := [] } :=
  ⟨rfl, rfl⟩

/-- The resolved (boundary, identity) pairs, in boundary order: one pair per
candidate boundary at which the oracle returned `Ok(Some(identity))`. -/
def resolvedPairs (sched : ManagedLeaderSchedule) (bs : List Nat) :
    List (Nat × Pubkey) :=
  bs.filterMap (fun b => (resolveBoundary sched b).map (fun leader => (b, leader)))

/-- Projecting the resolved pairs to identities gives exactly the call's
`filterMap`. -/
theorem map_snd_resolvedPairs (sched : ManagedLeaderSchedule) (bs : List Nat) :
    (resolvedPairs sched bs).map Prod.snd = bs.filterMap (resolveBoundary sched) := by
  induction bs with
  | nil => rfl
  | cons b bs ih =>
    unfold resolvedPairs at *
    cases h : resolveBoundary sched b <;>
      simp [List.filterMap_cons, h, ih]

/-- The boundaries of the resolved pairs form a sublist of the candidate
boundaries, hence inherit their order. -/
theorem map_fst_resolvedPairs_sublist (sched : ManagedLeaderSchedule)
    (bs : List Nat) :
    ((resolvedPairs sched bs).map Prod.fst).Sublist bs := by
  induction bs with
  | nil => simp [resolvedPairs]
  | cons b bs ih =>
    unfold resolvedPairs at *
    cases h : resolveBoundary sched b
    · simpa [List.filterMap_cons, h] using List.Sublist.cons b ih
    · simpa [List.filterMap_cons, h] using List.Sublist.cons₂ b ih

/-- Mapping a constant `some` under `filterMap` gives a `replicate`. -/
theorem filterMap_const_some {α β : Type} (l : List α) (c : β) :
    l.filterMap (fun _ => some c) = List.replicate l.length c := by
  induction l with
  | nil => rfl
  | cons a l ih => simp [List.filterMap_cons, ih, List.replicate_succ]

/-- Scenario-A collaborators (slot 10, oracle answers for boundaries
4..20), used by several witnesses. -/
def pkA : Pubkey := ⟨1⟩

def pkB : Pubkey := ⟨2⟩

def pkC : Pubkey := ⟨3⟩

def pkE : Pubkey := ⟨5⟩

def scenarioSchedule : ManagedLeaderSchedule :=
  { get_leader := fun b =>
      if b = 4 then .ok (some pkA)
      else if b = 8 then .ok (some pkB)
      else if b = 12 then .ok (some pkC)
      else if b = 16 then .ok none
      else if b = 20 then .ok (some pkE)
      else .error LookupError.transient }

def scenarioPredictor : YellowstoneUpcomingLeader :=
  { slot_tracker := { load := .ok 10 }, managed_schedule := scenarioSchedule }

/-- C3: for every `n > 0` and observed slot `s`, the boundaries queried
against the oracle before any filtering are exactly
`startBoundary s + 4*i` for `i < n`: `n` of them, strictly increasing,
with consecutive boundaries differing by exactly 4. -/
theorem candidate_boundary_sequence (p : YellowstoneUpcomingLeader)
    (n : Nat) (s : Nat) (hn : 0 < n) (hs : p.slot_tracker.load = .ok s) :
    (try_predict_next_n_leaders_traced p n).queried = candidateBoundaries n s ∧
    (candidateBoundaries n s).length = n ∧
    (∀ i, i < n → (candidateBoundaries n s)[i]? = some (startBoundary s + 4 * i)) ∧
    List.Chain' (fun a b => b = a + 4) (candidateBoundaries n s) ∧
    List.Pairwise (· < ·) (candidateBoundaries n s) :=
  ⟨traced_queried p n s (Nat.pos_iff_ne_zero.mp hn) hs,
   candidateBoundaries_length n s,
   fun i hi => candidateBoundaries_getElem n s i hi,
   candidateBoundaries_chain n s,
   candidateBoundaries_pairwise n s⟩

theorem candidate_boundary_sequence_witness :
    (try_predict_next_n_leaders_traced scenarioPredictor 5).queried =
      candidateBoundaries 5 10 :=
  (candidate_boundary_sequence scenarioPredictor 5 10 (by decide) rfl).1

/-- C4: whenever the call returns a sequence, its length is at most `n` and
equals `n` minus the number of candidate boundaries the oracle answered
with "unknown" or an error (the boundaries `resolveBoundary` drops); no
placeholder is inserted for a dropped boundary. -/
theorem output_length_eq (p : YellowstoneUpcomingLeader) (n : Nat) (s : Nat)
    (ls : List Pubkey) (hs : p.slot_tracker.load = .ok s)
    (hr : try_predict_next_n_leaders p n = .ok ls) :
    ls.length ≤ n ∧
    ls.length = n - (candidateBoundaries n s).countP
      (fun b => (resolveBoundary p.managed_schedule b).isNone) := by
  by_cases hn : n = 0
  · subst hn
    have h0 : try_predict_next_n_leaders p 0 = .ok [] := rfl
    rw [h0] at hr
    obtain rfl : ([] : List Pubkey) = ls := by simpa using hr
    simp [candidateBoundaries]
  · rw [try_predict_ok p n s hn hs] at hr
    obtain rfl :
        (candidateBoundaries n s).filterMap
          (resolveBoundary p.managed_schedule) = ls := by
      simpa using hr
    have hlen := length_filterMap_add_countP_none
      (resolveBoundary p.managed_schedule) (candidateBoundaries n s)
    have hcl := candidateBoundaries_length n s
    constructor <;> omega

theorem output_length_eq_witness :
    ([pkA, pkB, pkC, pkE] : List Pubkey).length ≤ 5 ∧
    ([pkA, pkB, pkC, pkE] : List Pubkey).length =
      5 - (candidateBoundaries 5 10).countP
        (fun b => (resolveBoundary scenarioPredictor.managed_schedule b).isNone) :=
  output_length_eq scenarioPredictor 5 10 [pkA, pkB, pkC, pkE] rfl rfl

/-- C5: the returned identities are the second projection of the resolved
(boundary, identity) pairs taken in strictly increasing boundary order, so
relative output order equals boundary order; and no deduplication happens:
an oracle answering the same identity at every boundary yields `n`
duplicate copies. -/
theorem output_order_and_duplicates (p : YellowstoneUpcomingLeader)
    (n : Nat) (s : Nat) (L : Pubkey) (hn : 0 < n)
    (hs : p.slot_tracker.load = .ok s) :
    try_predict_next_n_leaders p n =
      .ok ((resolvedPairs p.managed_schedule (candidateBoundaries n s)).map
        Prod.snd) ∧
    List.Pairwise (· < ·)
      ((resolvedPairs p.managed_schedule (candidateBoundaries n s)).map
        Prod.fst) ∧
    ((∀ b, p.managed_schedule.get_leader b = .ok (some L)) →
      try_predict_next_n_leaders p n = .ok (List.replicate n L)) := by
  have hn0 : n ≠ 0 := Nat.pos_iff_ne_zero.mp hn
  refine ⟨?_, ?_, ?_⟩
  · rw [try_predict_ok p n s hn0 hs, map_snd_resolvedPairs]
  · exact List.Pairwise.sublist
      (map_fst_resolvedPairs_sublist p.managed_schedule (candidateBoundaries n s))
      (candidateBoundaries_pairwise n s)
  · intro horacle
    rw [try_predict_ok p n s hn0 hs]
    congr 1
    have hres : ∀ b, resolveBoundary p.managed_schedule b = some L := by
      intro b
      unfold resolveBoundary
      rw [horacle b]
    calc (candidateBoundaries n s).filterMap (resolveBoundary p.managed_schedule)
        = (candidateBoundaries n s).filterMap (fun _ => some L) :=
          List.filterMap_congr (fun b _ => hres b)
      _ = List.replicate n L := by
          rw [filterMap_const_some, candidateBoundaries_length]

def constantSchedule : ManagedLeaderSchedule :=
  { get_leader := fun _ => .ok (some pkA) }

def constantPredictor : YellowstoneUpcomingLeader :=
  { slot_tracker := { load := .ok 10 }, managed_schedule := constantSchedule }

theorem output_order_and_duplicates_witness :
    try_predict_next_n_leaders constantPredictor 3 =
      .ok (List.replicate 3 pkA) :=
  (output_order_and_duplicates constantPredictor 3 10 pkA (by decide) rfl).2.2
    (fun _ => rfl)

def lowSlotPredictor : YellowstoneUpcomingLeader :=
  { slot_tracker := { load := .ok 3 }
    managed_schedule := { get_leader := fun _ => .ok none } }

/-- C6 counterexample: at slot 3 the current window's boundary is 0 and the
first queried candidate boundary is also 0 — the current window itself, not
one full window (4 slots) before it, so the previous leader's window is not
always the first candidate queried. -/
theorem first_candidate_previous_window_counterexample :
    (try_predict_next_n_leaders_traced lowSlotPredictor 1).queried.head? =
      some 0 ∧
    currentLeaderBoundary 3 = 0 ∧
    ¬ ((0 : Int) = (currentLeaderBoundary 3 : Int) - 4) := by
  decide

/-- C6 (amended): for every slot `s` and `n > 0`, the first candidate
boundary queried is `startBoundary s`, which over the integers equals
`max 0 (currentLeaderBoundary s - 4)`: exactly one full window (4 slots)
before the current window's boundary whenever that boundary is at least 4,
and saturated to 0 — never negative — for smaller slots, where it is the
current window itself. -/
theorem first_candidate_boundary (p : YellowstoneUpcomingLeader)
    (n : Nat) (s : Nat) (hn : 0 < n) (hs : p.slot_tracker.load = .ok s) :
    (try_predict_next_n_leaders_traced p n).queried.head? =
      some (startBoundary s) ∧
    (startBoundary s : Int) = max 0 ((currentLeaderBoundary s : Int) - 4) ∧
    (4 ≤ currentLeaderBoundary s →
      startBoundary s + 4 = currentLeaderBoundary s) := by
  refine ⟨?_, ?_, ?_⟩
  · rw [traced_queried p n s (Nat.pos_iff_ne_zero.mp hn) hs]
    cases n with
    | zero => exact absurd hn (by decide)
    | succ m =>
      rw [candidateBoundaries, List.range_succ_eq_map]
      simp
  · unfold startBoundary currentLeaderBoundary
    rw [max_def]
    split <;> omega
  · intro h4
    unfold startBoundary
    omega

theorem first_candidate_boundary_witness :
    (try_predict_next_n_leaders_traced scenarioPredictor 5).queried.head? =
      some (startBoundary 10) :=
  (first_candidate_boundary scenarioPredictor 5 10 (by decide) rfl).1

/-- C8: a lookup error at one candidate boundary does not abort the call:
all `n` boundaries are still queried, the call still returns an `ok`
sequence, and an identity successfully resolved at any later boundary
appears in that sequence. -/
theorem lookup_error_not_fatal (p : YellowstoneUpcomingLeader)
    (n : Nat) (s : Nat) (j k : Nat) (L : Pubkey) (e : LookupError)
    (hs : p.slot_tracker.load = .ok s) (hjk : j < k) (hk : k < n)
    (he : p.managed_schedule.get_leader (startBoundary s + j * 4) = .error e)
    (hL : p.managed_schedule.get_leader (startBoundary s + k * 4) =
      .ok (some L)) :
    (try_predict_next_n_leaders_traced p n).queried.length = n ∧
    ∃ ls, try_predict_next_n_leaders p n = .ok ls ∧ L ∈ ls := by
  have hn0 : n ≠ 0 := by omega
  constructor
  · rw [traced_queried p n s hn0 hs, candidateBoundaries_length]
  · refine ⟨_, try_predict_ok p n s hn0 hs, ?_⟩
    rw [List.mem_filterMap]
    refine ⟨startBoundary s + k * 4, ?_, ?_⟩
    · unfold candidateBoundaries
      exact List.mem_map.mpr ⟨k, List.mem_range.mpr hk, rfl⟩
    · unfold resolveBoundary
      rw [hL]

def errorThenOkSchedule : ManagedLeaderSchedule :=
  { get_leader := fun b =>
      if b = 4 then .error LookupError.transient
      else if b = 8 then .ok (some pkB)
      else .ok none }

def errorThenOkPredictor : YellowstoneUpcomingLeader :=
  { slot_tracker := { load := .ok 10 }
    managed_schedule := errorThenOkSchedule }

theorem lookup_error_not_fatal_witness :
    ∃ ls, try_predict_next_n_leaders errorThenOkPredictor 2 = .ok ls ∧
      pkB ∈ ls :=
  (lookup_error_not_fatal errorThenOkPredictor 2 10 0 1 pkB
    LookupError.transient rfl (by decide) (by decide) rfl rfl).2

/-- C9: the call is deterministic in its two collaborators: for every `n`,
two predictors whose trackers read equal and whose oracles answer equally
at every boundary return identical sequences. -/
theorem deterministic_in_collaborators (p q : YellowstoneUpcomingLeader)
    (n : Nat) (ht : p.slot_tracker.load = q.slot_tracker.load)
    (ho : ∀ b, p.managed_schedule.get_leader b =
      q.managed_schedule.get_leader b) :
    try_predict_next_n_leaders p n = try_predict_next_n_leaders q n := by
  have hsched : p.managed_schedule.get_leader = q.managed_schedule.get_leader :=
    funext ho
  have hm : p.managed_schedule = q.managed_schedule := by
    have h := congrArg ManagedLeaderSchedule.mk hsched
    exact h
  unfold try_predict_next_n_leaders
  rw [ht, hm]

theorem deterministic_in_collaborators_witness :
    try_predict_next_n_leaders scenarioPredictor 5 =
      try_predict_next_n_leaders scenarioPredictor 5 :=
  deterministic_in_collaborators scenarioPredictor scenarioPredictor 5 rfl
    (fun _ => rfl)

/-- C10: with a readable (non-poisoned) tracker and `n > 0`, if the oracle
answers "unknown" or a lookup error at every candidate boundary, the call
still succeeds and returns the empty sequence — an `ok` outcome, distinct
from the poisoned-tracker failure. -/
theorem all_dropped_yields_empty_ok (p : YellowstoneUpcomingLeader)
    (n : Nat) (s : Nat) (hn : 0 < n) (hs : p.slot_tracker.load = .ok s)
    (h : ∀ b ∈ candidateBoundaries n s,
      p.managed_schedule.get_leader b = .ok none ∨
      ∃ e, p.managed_schedule.get_leader b = .error e) :
    try_predict_next_n_leaders p n = .ok [] := by
  rw [try_predict_ok p n s (Nat.pos_iff_ne_zero.mp hn) hs]
  congr 1
  rw [List.filterMap_eq_nil_iff]
  intro b hb
  unfold resolveBoundary
  rcases h b hb with hnone | ⟨e, herr⟩
  · rw [hnone]
  · rw [herr]

def mixedDropSchedule : ManagedLeaderSchedule :=
  { get_leader := fun b =>
      if b = 4 then .error LookupError.transient else .ok none }

def mixedDropPredictor : YellowstoneUpcomingLeader :=
  { slot_tracker := { load := .ok 10 }
    managed_schedule := mixedDropSchedule }

theorem all_dropped_yields_empty_ok_witness :
    try_predict_next_n_leaders mixedDropPredictor 2 = .ok [] :=
  all_dropped_yields_empty_ok mixedDropPredictor 2 10 (by decide) rfl (by
    intro b hb
    have hb2 : b = 4 ∨ b = 8 := by
      have hcb : candidateBoundaries 2 10 = [4, 8] := rfl
      rw [hcb] at hb
      simpa using hb
    rcases hb2 with rfl | rfl
    · exact Or.inr ⟨LookupError.transient, rfl⟩
    · exact Or.inl rfl)

end YellowstoneSchedule
